import Mathlib

/-
  Verification of the perception / interaction core of the directional
  tactile navigation simulator (src/tactile_device.py).

  The Python source is shallowly embedded: floating point arithmetic is
  modelled by the real numbers, the global mutable state (obstacle list,
  player pose, previous-distance table, timestep counter, vertical state)
  is passed explicitly, and the while loops and early-return loops of the
  source are rendered as folds, finds and closed forms, as documented at
  each definition.
-/

namespace Tactile

/-! ## System constants (from the SYSTEM CONSTANTS / WORLD SETTINGS blocks) -/

/-- UPDATE_RATE = 5 Hz. -/
noncomputable def UPDATE_RATE : ℝ := 5

/-- MAX_RANGE = 3.0 meters. -/
noncomputable def MAX_RANGE : ℝ := 3.0

/-- SCALE = 100 pixels per meter. -/
noncomputable def SCALE : ℝ := 100

/-- WORLD_SIZE = 1000 pixels. -/
noncomputable def WORLD_SIZE : ℝ := 1000

/-- WALL_BOUNDARY = 50 pixels. -/
noncomputable def WALL_BOUNDARY : ℝ := 50

/-- WALL_THICKNESS_PX = 30 pixels. -/
noncomputable def WALL_THICKNESS_PX : ℝ := 30

/-- WALL_INNER = WALL_BOUNDARY + WALL_THICKNESS_PX. -/
noncomputable def WALL_INNER : ℝ := WALL_BOUNDARY + WALL_THICKNESS_PX

/-- PLAYER_RADIUS = 15 pixels. -/
noncomputable def PLAYER_RADIUS : ℝ := 15

/-- JUMP_STRENGTH = 4.0 m/s. -/
noncomputable def JUMP_STRENGTH : ℝ := 4.0

/-- GRAVITY = 12.0 m/s^2. -/
noncomputable def GRAVITY : ℝ := 12.0

/-- FALL_SPEED = 3.0 m/s. -/
noncomputable def FALL_SPEED : ℝ := 3.0

/-- POTHOLE_DEPTH = -0.8 meters. -/
noncomputable def POTHOLE_DEPTH : ℝ := -0.8

/-! ## Elevation category strings (keys of ELEVATION_TYPES) -/

/-- Elevation key for flat ground. -/
def GROUND : String := "ground"

/-- Elevation key for a shallow pothole. -/
def SHALLOW_POTHOLE : String := "shallow_pothole"

/-- Elevation key for a cliff pothole. -/
def CLIFF_POTHOLE : String := "cliff_pothole"

/-- Elevation key for a step obstacle. -/
def STEP : String := "step"

/-- Elevation key for a mid obstacle. -/
def MID : String := "mid"

/-- Elevation key for a top obstacle. -/
def TOP : String := "top"

/-- Vibration mode string for a static cell. -/
def STATIC : String := "static"

/-- Vibration mode string for a slowly changing cell. -/
def SLOW : String := "slow"

/-- Vibration mode string for a fast changing cell. -/
def FAST : String := "fast"

/-! ## Data model -/

/-- One obstacle record, mirroring the dict built in generate_obstacles:
keys x, y, elevation, moving, vx, vy, cube_w, cube_d, cube_h. -/
structure Obstacle where
  x : ℝ
  y : ℝ
  elevation : String
  moving : Bool
  vx : ℝ
  vy : ℝ
  cube_w : ℝ
  cube_d : ℝ
  cube_h : ℝ

/-- The planar world state read by the perception engine: the obstacle
list together with the player globals player_x, player_y, player_angle. -/
structure World where
  obstacles : List Obstacle
  player_x : ℝ
  player_y : ℝ
  player_angle : ℝ

/-- The player vertical state: globals player_y_offset, player_y_target,
player_in_pothole, player_jumping, player_jump_velocity. -/
structure VState where
  y_offset : ℝ
  y_target : ℝ
  in_pothole : Bool
  jumping : Bool
  jump_velocity : ℝ

/-! ## Helpers -/

/-- ELEVATION_TYPES height lookup: get_elevation_height returns the height
code of the given key, defaulting to the ground entry (0) for unknown keys
exactly as ELEVATION_TYPES.get does. -/
def get_elevation_height (elev_type : String) : ℤ :=
  if elev_type = GROUND then 0
  else if elev_type = SHALLOW_POTHOLE then -1
  else if elev_type = CLIFF_POTHOLE then -3
  else if elev_type = STEP then 1
  else if elev_type = MID then 2
  else if elev_type = TOP then 3
  else 0

/-- DISTANCE_LAYERS weight column: row 0 weight 1.0, row 1 weight 0.7,
row 2 weight 0.4. -/
noncomputable def band_weight (r : Fin 3) : ℝ :=
  if r = 0 then 1.0 else if r = 1 then 0.7 else 0.4

/-- get_distance_meters: pixel distance divided by SCALE. -/
noncomputable def get_distance_meters (dist_pixels : ℝ) : ℝ := dist_pixels / SCALE

/-- math.hypot of the two coordinate differences. -/
noncomputable def hypot (dx dy : ℝ) : ℝ := Real.sqrt (dx ^ 2 + dy ^ 2)

/-- math.atan2, the standard two-argument arctangent implemented by the C
library behind the Python math module: arctan of the quotient corrected by
quadrant, with atan2 0 0 = 0. -/
noncomputable def atan2 (y x : ℝ) : ℝ :=
  if 0 < x then Real.arctan (y / x)
  else if x < 0 ∧ 0 ≤ y then Real.arctan (y / x) + Real.pi
  else if x < 0 ∧ y < 0 then Real.arctan (y / x) - Real.pi
  else if x = 0 ∧ 0 < y then Real.pi / 2
  else if x = 0 ∧ y < 0 then -(Real.pi / 2)
  else 0

/-- normalize_angle: closed form of the two source while loops.  The first
loop adds 2*pi while the angle is below -pi, hence exactly
max 0 (ceil ((-pi - a) / (2*pi))) times; the second loop then subtracts
2*pi while the angle is above pi, hence exactly
max 0 (ceil ((a1 - pi) / (2*pi))) times. -/
noncomputable def normalize_angle (a : ℝ) : ℝ :=
  let a1 := a + 2 * Real.pi * ((max 0 ⌈(-Real.pi - a) / (2 * Real.pi)⌉ : ℤ) : ℝ)
  a1 - 2 * Real.pi * ((max 0 ⌈(a1 - Real.pi) / (2 * Real.pi)⌉ : ℤ) : ℝ)

/-! ## Perception grid engine (compute_tactile_grid) -/

/-- Planar distance in meters from the player to an obstacle:
get_distance_meters (hypot dx dy). -/
noncomputable def distOf (w : World) (o : Obstacle) : ℝ :=
  get_distance_meters (hypot (o.x - w.player_x) (o.y - w.player_y))

/-- Bearing of an obstacle relative to the player heading, in degrees:
math.degrees (normalize_angle (atan2 dy dx - player_angle)). -/
noncomputable def bearing_deg (w : World) (o : Obstacle) : ℝ :=
  normalize_angle (atan2 (o.y - w.player_y) (o.x - w.player_x) - w.player_angle)
    * 180 / Real.pi

/-- Row classification of a distance in meters: below 1 Immediate (0),
below 2 Near (1), otherwise Far (2). -/
noncomputable def row_of (dist_m : ℝ) : Fin 3 :=
  if dist_m < 1 then 0 else if dist_m < 2 then 1 else 2

/-- Column classification of a bearing in degrees: below -20 Left (0),
below 20 Center (1), otherwise Right (2). -/
noncomputable def col_of (angle_deg : ℝ) : Fin 3 :=
  if angle_deg < -20 then 0 else if angle_deg < 20 then 1 else 2

/-- The per-obstacle body of the grid loops up to the cell test: an
obstacle beyond MAX_RANGE or beyond 60 degrees of bearing is discarded
(continue), otherwise it is classified into its (row, column) bin and
keeps its distance in meters. -/
noncomputable def obstacleBin (w : World) (o : Obstacle) : Option (Fin 3 × Fin 3 × ℝ) :=
  if distOf w o > MAX_RANGE then none
  else if |bearing_deg w o| > 60 then none
  else some (row_of (distOf w o), col_of (bearing_deg w o), distOf w o)

/-- One step of the best-obstacle selection for cell (r, c): if the
obstacle falls in this cell and is strictly nearer than the current best
(or there is no current best), it becomes the best. -/
noncomputable def bestStep (w : World) (r c : Fin 3)
    (best : Option (ℝ × Obstacle)) (o : Obstacle) : Option (ℝ × Obstacle) :=
  match obstacleBin w o with
  | none => best
  | some (row, col, d) =>
      if row = r ∧ col = c then
        match best with
        | none => some (d, o)
        | some (bd, bo) => if d < bd then some (d, o) else some (bd, bo)
      else best

/-- The inner obstacle loop of compute_tactile_grid for cell (r, c),
tracking best_dist and best_obstacle over the obstacle list. -/
noncomputable def bestForCell (w : World) (r c : Fin 3) : Option (ℝ × Obstacle) :=
  w.obstacles.foldl (bestStep w r c) none

/-- Cell intensity before the priority-suppression post-pass:
elevation height of the best obstacle times the row attenuation weight,
0 when the cell has no best obstacle. -/
noncomputable def heightsPre (w : World) (r c : Fin 3) : ℝ :=
  match bestForCell w r c with
  | some (_, o) => (get_elevation_height o.elevation : ℝ) * band_weight r
  | none => 0

/-- Vibration mode of a cell: when a best obstacle exists and a previous
distance is recorded, radial speed abs (prev - best_dist) / 0.2 decides
fast / slow / static; otherwise static. -/
noncomputable def vibrationOf (prev : Fin 3 → Fin 3 → Option ℝ) (w : World)
    (r c : Fin 3) : String :=
  match bestForCell w r c with
  | some (d, _) =>
      match prev r c with
      | some p =>
          if |p - d| / 0.2 > 0.8 then FAST
          else if |p - d| / 0.2 > 0.2 then SLOW
          else STATIC
      | none => STATIC
  | none => STATIC

/-- The previous-distance table written by the tick: the best distance of
the cell, or none when the cell has no best obstacle. -/
noncomputable def newPrevOf (w : World) (r c : Fin 3) : Option ℝ :=
  (bestForCell w r c).map Prod.fst

/-- The obstacle reference stored in a cell. -/
noncomputable def cellObstacle (w : World) (r c : Fin 3) : Option Obstacle :=
  (bestForCell w r c).map Prod.snd

/-- Cell intensity after the priority-suppression post-pass: when the
Immediate cell of the column reaches 3 * band_weight 0, the Far cell is
multiplied by 0.3 and the Near cell by 0.7. -/
noncomputable def heightsFinal (w : World) (r c : Fin 3) : ℝ :=
  if heightsPre w 0 c ≥ 3 * band_weight 0 then
    if r = 2 then heightsPre w 2 c * 0.3
    else if r = 1 then heightsPre w 1 c * 0.7
    else heightsPre w r c
  else heightsPre w r c

/-- The tactile grid snapshot returned by compute_tactile_grid: the
heights, vibration and cell_obstacles arrays. -/
structure GridOut where
  heights : Fin 3 → Fin 3 → ℝ
  vibration : Fin 3 → Fin 3 → String
  cell_obstacles : Fin 3 → Fin 3 → Option Obstacle

/-- The persistent simulation state touched by compute_tactile_grid: the
world it reads, and the previous_dist table and timestep counter it
declares global and writes. -/
structure SimState where
  world : World
  previous_dist : Fin 3 → Fin 3 → Option ℝ
  timestep : ℕ

/-- compute_tactile_grid as a state transformer: it reads the world and
the previous-distance table, returns the fresh grid snapshot, overwrites
previous_dist cell by cell with this tick's best distances, and
increments timestep. -/
noncomputable def compute_tactile_grid (st : SimState) : SimState × GridOut :=
  (⟨st.world, fun r c => newPrevOf st.world r c, st.timestep + 1⟩,
   ⟨heightsFinal st.world, vibrationOf st.previous_dist st.world,
    cellObstacle st.world⟩)

/-! ## Safety advisor (compute_safe_direction) -/

/-- One row contribution to a column risk: abs intensity divided by the
row weight when the abs intensity is positive, else nothing is added. -/
noncomputable def risk_term (heights : Fin 3 → Fin 3 → ℝ) (r c : Fin 3) : ℝ :=
  if |heights r c| > 0 then |heights r c| / band_weight r else 0

/-- Aggregate risk of a column: the row loop accumulation of
compute_safe_direction. -/
noncomputable def riskOf (heights : Fin 3 → Fin 3 → ℝ) (c : Fin 3) : ℝ :=
  risk_term heights 0 c + risk_term heights 1 c + risk_term heights 2 c

/-- min(risks): the value of the Python min over the three column risks. -/
noncomputable def minRisk (heights : Fin 3 → Fin 3 → ℝ) : ℝ :=
  min (min (riskOf heights 0) (riskOf heights 1)) (riskOf heights 2)

/-- compute_safe_direction: none (all clear) when the minimum risk is 0,
otherwise the first column index attaining the minimum (risks.index). -/
noncomputable def compute_safe_direction (heights : Fin 3 → Fin 3 → ℝ) :
    Option (Fin 3) :=
  if minRisk heights = 0 then none
  else if riskOf heights 0 = minRisk heights then some 0
  else if riskOf heights 1 = minRisk heights then some 1
  else some 2

/-! ## Collision resolver (check_collision) -/

/-- The candidate point lies inside the planar bounds of the obstacle
expanded by the player radius (the box test of check_collision). -/
noncomputable def insideExpanded (o : Obstacle) (px py : ℝ) : Prop :=
  o.x - o.cube_w * SCALE - PLAYER_RADIUS < px ∧
  px < o.x + o.cube_w * SCALE + PLAYER_RADIUS ∧
  o.y - o.cube_d * SCALE - PLAYER_RADIUS < py ∧
  py < o.y + o.cube_d * SCALE + PLAYER_RADIUS

/-- The wall test at the head of check_collision. -/
noncomputable def wallBlocked (px py : ℝ) : Prop :=
  px ≤ WALL_INNER ∨ px ≥ WORLD_SIZE - WALL_INNER ∨
  py ≤ WALL_INNER ∨ py ≥ WORLD_SIZE - WALL_INNER

noncomputable instance (o : Obstacle) (px py : ℝ) :
    Decidable (insideExpanded o px py) := by
  unfold insideExpanded; infer_instance

noncomputable instance (px py : ℝ) : Decidable (wallBlocked px py) := by
  unfold wallBlocked; infer_instance

/-- check_collision: walls always block; otherwise the obstacle loop
returns true on the first obstacle whose expanded box contains the point
and whose category blocks (cliff potholes always, mid and top always,
steps unless the player is jumping, shallow potholes never). -/
noncomputable def check_collision (w : World) (player_jumping : Bool)
    (px py : ℝ) : Bool :=
  if wallBlocked px py then true
  else w.obstacles.any fun o =>
    if insideExpanded o px py then
      if o.elevation = CLIFF_POTHOLE then true
      else if o.elevation = MID ∨ o.elevation = TOP then true
      else if o.elevation = STEP ∧ player_jumping = false then true
      else false
    else false

/-! ## Vertical state machine (get_pothole_at_player, update_player_vertical,
the SPACE key handler of the main loop) -/

/-- get_pothole_at_player: the first shallow pothole whose expanded box
contains the player position, if any. -/
noncomputable def get_pothole_at_player (w : World) : Option Obstacle :=
  w.obstacles.find? fun o =>
    decide (o.elevation = SHALLOW_POTHOLE) &&
    decide (o.x - o.cube_w * SCALE - PLAYER_RADIUS < w.player_x) &&
    decide (w.player_x < o.x + o.cube_w * SCALE + PLAYER_RADIUS) &&
    decide (o.y - o.cube_d * SCALE - PLAYER_RADIUS < w.player_y) &&
    decide (w.player_y < o.y + o.cube_d * SCALE + PLAYER_RADIUS)

/-- update_player_vertical: the jumping branch integrates gravity and
lands when the offset returns to at most 0 with negative velocity; the
grounded branch runs the pothole enter / leave logic and the smoothed
interpolation of the offset toward the target. -/
noncomputable def update_player_vertical (w : World) (dt : ℝ) (s : VState) :
    VState :=
  if s.jumping then
    let v := s.jump_velocity - GRAVITY * dt
    let off := s.y_offset + v * dt
    if off ≤ 0 ∧ v < 0 then
      { y_offset := 0, y_target := s.y_target, in_pothole := false,
        jumping := false, jump_velocity := 0 }
    else
      { y_offset := off, y_target := s.y_target, in_pothole := s.in_pothole,
        jumping := true, jump_velocity := v }
  else
    let pothole := get_pothole_at_player w
    let s1 :=
      if pothole.isSome && !s.in_pothole then
        { s with in_pothole := true, y_target := POTHOLE_DEPTH }
      else if pothole.isNone && s.in_pothole && !s.jumping then
        { s with in_pothole := false, y_target := 0 }
      else s
    let tgt := if s1.in_pothole then POTHOLE_DEPTH else s1.y_target
    let diff := tgt - s1.y_offset
    let off :=
      if |diff| > 0.005 then s1.y_offset + diff * min 1 (FALL_SPEED * dt * 5)
      else tgt
    { y_offset := off, y_target := tgt, in_pothole := s1.in_pothole,
      jumping := false, jump_velocity := s1.jump_velocity }

/-- The SPACE key handler of the main loop: when not already jumping,
start a jump at JUMP_STRENGTH, boosted to JUMP_STRENGTH * 1.2 when the
player is in a pothole. -/
noncomputable def handle_jump_key (s : VState) : VState :=
  if s.jumping then s
  else
    let v := JUMP_STRENGTH
    let v := if s.in_pothole then JUMP_STRENGTH * 1.2 else v
    { s with jumping := true, jump_velocity := v }

/-! ## Obstacle kinematics and the main loop frame (main) -/

/-- update_obstacles: moving obstacles advance by their velocity and
reflect the velocity components near the world borders. -/
noncomputable def update_obstacles (l : List Obstacle) : List Obstacle :=
  l.map fun o =>
    if o.moving then
      let x := o.x + o.vx
      let y := o.y + o.vy
      let vx := if x < 20 ∨ x > WORLD_SIZE - 20 then -o.vx else o.vx
      let vy := if y < 20 ∨ y > WORLD_SIZE - 20 then -o.vy else o.vy
      { o with x := x, y := y, vx := vx, vy := vy }
    else o

/-- The state carried between iterations of the main loop: the perception
state, the vertical state and the last_update wall-clock stamp. -/
structure LoopState where
  sim : SimState
  vert : VState
  last_update : ℝ

/-- One iteration of the main loop with no keys pressed, at wall-clock
time t: update_player_vertical at dt = 1/60, then the 5 Hz gate (which
runs update_obstacles and stamps last_update only when at least
1 / UPDATE_RATE seconds elapsed), then compute_tactile_grid,
which the source calls unconditionally on every iteration. -/
noncomputable def frame (t : ℝ) (ls : LoopState) : LoopState :=
  let vert := update_player_vertical ls.sim.world (1 / 60) ls.vert
  let gated := t - ls.last_update ≥ 1 / UPDATE_RATE
  let world :=
    if gated then
      { ls.sim.world with obstacles := update_obstacles ls.sim.world.obstacles }
    else ls.sim.world
  let lu := if gated then t else ls.last_update
  let res := compute_tactile_grid ⟨world, ls.sim.previous_dist, ls.sim.timestep⟩
  ⟨res.1, vert, lu⟩

/-! ## Trajectories and concrete scenarios used in the proofs -/

/-- The vertical trajectory after a jump keypress: n ticks of
update_player_vertical applied to the state produced by the SPACE
handler. -/
noncomputable def jumpTraj (w : World) (dt : ℝ) (s : VState) (n : ℕ) : VState :=
  (update_player_vertical w dt)^[n] (handle_jump_key s)

/-- A grid with column 0 empty and a single intensity 1 cell at the top of
each of columns 1 and 2. -/
noncomputable def exGrid2 : Fin 3 → Fin 3 → ℝ :=
  fun r c => if c = 0 then 0 else if r = 0 then 1 else 0

/-- A uniform grid with every intensity 1. -/
noncomputable def exGrid3 : Fin 3 → Fin 3 → ℝ := fun _ _ => 1

/-- An obstacle of the given elevation kind 0.5 m straight ahead of the
scenario player at (500, 500) facing along the positive x axis. -/
noncomputable def obsK (k : String) : Obstacle :=
  ⟨550, 500, k, false, 0, 0, 0.3, 0.3, 0.5⟩

/-- A world with the single obstacle obsK k and the player at (500, 500)
with heading 0. -/
noncomputable def wK (k : String) : World := ⟨[obsK k], 500, 500, 0⟩

/-- A previous-distance table with 1 m recorded for the Immediate/Center
cell and nothing elsewhere. -/
noncomputable def prevK : Fin 3 → Fin 3 → Option ℝ :=
  fun r c => if r = 0 ∧ c = 1 then some 1 else none

/-- An empty world with the player at the center. -/
noncomputable def exWorld0 : World := ⟨[], 500, 500, 0⟩

/-- A simulation state over the empty world. -/
noncomputable def exSim0 : SimState := ⟨exWorld0, fun _ _ => none, 0⟩

/-- The grounded resting vertical state. -/
noncomputable def exVert0 : VState := ⟨0, 0, false, false, 0⟩

/-- A loop state at last_update 0 over the empty world. -/
noncomputable def exLoop0 : LoopState := ⟨exSim0, exVert0, 0⟩

/-- A vertical state settled at the bottom of a shallow pothole. -/
noncomputable def exPitState : VState := ⟨-0.8, -0.8, true, false, 0⟩

/-- A top obstacle located exactly at the scenario player position. -/
noncomputable def obsAtPlayer : Obstacle := ⟨500, 500, TOP, false, 0, 0, 0.3, 0.3, 1.8⟩

/-- A world with obsAtPlayer and heading 0. -/
noncomputable def wA : World := ⟨[obsAtPlayer], 500, 500, 0⟩

/-- A world with obsAtPlayer and heading pi/2. -/
noncomputable def wB : World := ⟨[obsAtPlayer], 500, 500, Real.pi / 2⟩

/-- A cliff pothole centered on the scenario player position. -/
noncomputable def obsCliff : Obstacle := ⟨500, 500, CLIFF_POTHOLE, false, 0, 0, 0.3, 0.3, 1.0⟩

/-- A world with the single obstacle obsCliff. -/
noncomputable def wCliff : World := ⟨[obsCliff], 500, 500, 0⟩

/-- A step obstacle centered on the scenario player position. -/
noncomputable def obsStep : Obstacle := ⟨500, 500, STEP, false, 0, 0, 0.3, 0.3, 0.4⟩

/-- A mid obstacle centered on the scenario player position. -/
noncomputable def obsMid : Obstacle := ⟨500, 500, MID, false, 0, 0, 0.3, 0.3, 0.9⟩

/-- A world holding overlapping step and mid obstacles. -/
noncomputable def wStepMid : World := ⟨[obsStep, obsMid], 500, 500, 0⟩

/-! ## Helper lemmas -/

lemma normalize_angle_eq_self {a : ℝ} (h1 : -Real.pi ≤ a) (h2 : a ≤ Real.pi) :
    normalize_angle a = a := by
  have hpi := Real.pi_pos
  have hc1 : ⌈(-Real.pi - a) / (2 * Real.pi)⌉ ≤ 0 := by
    rw [Int.ceil_le]
    push_cast
    apply div_nonpos_of_nonpos_of_nonneg <;> linarith
  have hc2 : ⌈(a - Real.pi) / (2 * Real.pi)⌉ ≤ 0 := by
    rw [Int.ceil_le]
    push_cast
    apply div_nonpos_of_nonpos_of_nonneg <;> linarith
  unfold normalize_angle
  rw [max_eq_left hc1]
  simp only [Int.cast_zero, mul_zero, add_zero]
  rw [max_eq_left hc2]
  simp

lemma atan2_zero_of_pos {x : ℝ} (hx : 0 < x) : atan2 0 x = 0 := by
  unfold atan2
  rw [if_pos hx]
  simp [Real.arctan_zero]

lemma atan2_zero_zero : atan2 0 0 = 0 := by
  unfold atan2
  norm_num

lemma distOf_nonneg (w : World) (o : Obstacle) : 0 ≤ distOf w o := by
  unfold distOf get_distance_meters hypot SCALE
  positivity

lemma bestStep_bin_none {w : World} {r c : Fin 3} {acc : Option (ℝ × Obstacle)}
    {o : Obstacle} (h : obstacleBin w o = none) : bestStep w r c acc o = acc := by
  simp only [bestStep, h]

lemma bestStep_bin_other {w : World} {r c row col : Fin 3} {d : ℝ}
    {acc : Option (ℝ × Obstacle)} {o : Obstacle}
    (h : obstacleBin w o = some (row, col, d)) (hne : ¬(row = r ∧ col = c)) :
    bestStep w r c acc o = acc := by
  simp only [bestStep, h]
  rw [if_neg hne]

lemma bestStep_cell_none {w : World} {r c : Fin 3} {d : ℝ} {o : Obstacle}
    (h : obstacleBin w o = some (r, c, d)) : bestStep w r c none o = some (d, o) := by
  simp [bestStep, h]

lemma bestStep_cell_some {w : World} {r c : Fin 3} {d bd : ℝ} {o bo : Obstacle}
    (h : obstacleBin w o = some (r, c, d)) :
    bestStep w r c (some (bd, bo)) o = if d < bd then some (d, o) else some (bd, bo) := by
  simp [bestStep, h]

lemma foldl_best_spec (w : World) (r c : Fin 3) (l : List Obstacle) :
    ∀ acc : Option (ℝ × Obstacle),
      (∀ d o, acc = some (d, o) → obstacleBin w o = some (r, c, d)) →
      ((l.foldl (bestStep w r c) acc = none →
          acc = none ∧ ∀ o ∈ l, ∀ d, obstacleBin w o ≠ some (r, c, d)) ∧
       (∀ d o, l.foldl (bestStep w r c) acc = some (d, o) →
          obstacleBin w o = some (r, c, d) ∧
          (acc = some (d, o) ∨ o ∈ l) ∧
          (∀ o2 ∈ l, ∀ d2, obstacleBin w o2 = some (r, c, d2) → d ≤ d2) ∧
          (∀ d2 o2, acc = some (d2, o2) → d ≤ d2))) := by
  induction l with
  | nil =>
      intro acc hacc
      constructor
      · intro h
        exact ⟨h, by simp⟩
      · intro d o h
        simp only [List.foldl_nil] at h
        refine ⟨hacc d o h, Or.inl h, by simp, ?_⟩
        intro d2 o2 h2
        rw [h] at h2
        simp only [Option.some.injEq, Prod.mk.injEq] at h2
        obtain ⟨rfl, rfl⟩ := h2
        exact le_refl _
  | cons x xs ih =>
      intro acc hacc
      rcases hbin : obstacleBin w x with _ | ⟨row, col, dx⟩
      · -- obstacle x is discarded by range or field of view
        have hs : bestStep w r c acc x = acc := bestStep_bin_none hbin
        obtain ⟨H1, H2⟩ := ih acc hacc
        constructor
        · intro h
          rw [List.foldl_cons, hs] at h
          obtain ⟨ha, hnol⟩ := H1 h
          refine ⟨ha, ?_⟩
          intro o ho d
          rcases List.mem_cons.mp ho with rfl | ho2
          · rw [hbin]; simp
          · exact hnol o ho2 d
        · intro d o h
          rw [List.foldl_cons, hs] at h
          obtain ⟨hbino, horig, hmin, haccmin⟩ := H2 d o h
          refine ⟨hbino, ?_, ?_, haccmin⟩
          · rcases horig with h1 | h1
            · exact Or.inl h1
            · exact Or.inr (List.mem_cons_of_mem _ h1)
          · intro o2 ho2 d2 hb2
            rcases List.mem_cons.mp ho2 with rfl | ho3
            · rw [hbin] at hb2; cases hb2
            · exact hmin o2 ho3 d2 hb2
      · by_cases hcell : row = r ∧ col = c
        · obtain ⟨rfl, rfl⟩ := hcell
          rcases acc with _ | ⟨bd, bo⟩
          · -- no best yet: x becomes the best
            have hs : bestStep w row col none x = some (dx, x) := bestStep_cell_none hbin
            have hacc2 : ∀ d o, (some (dx, x) : Option (ℝ × Obstacle)) = some (d, o) →
                obstacleBin w o = some (row, col, d) := by
              intro d o h
              simp only [Option.some.injEq, Prod.mk.injEq] at h
              obtain ⟨rfl, rfl⟩ := h
              exact hbin
            obtain ⟨H1, H2⟩ := ih (some (dx, x)) hacc2
            constructor
            · intro h
              rw [List.foldl_cons, hs] at h
              obtain ⟨hcontra, _⟩ := H1 h
              cases hcontra
            · intro d o h
              rw [List.foldl_cons, hs] at h
              obtain ⟨hbino, horig, hmin, haccmin⟩ := H2 d o h
              refine ⟨hbino, ?_, ?_, ?_⟩
              · rcases horig with h1 | h1
                · simp only [Option.some.injEq, Prod.mk.injEq] at h1
                  obtain ⟨rfl, rfl⟩ := h1
                  exact Or.inr (List.mem_cons_self _ _)
                · exact Or.inr (List.mem_cons_of_mem _ h1)
              · intro o2 ho2 d2 hb2
                rcases List.mem_cons.mp ho2 with rfl | ho3
                · rw [hbin] at hb2
                  simp only [Option.some.injEq, Prod.mk.injEq] at hb2
                  obtain ⟨-, -, rfl⟩ := hb2
                  exact haccmin dx _ rfl
                · exact hmin o2 ho3 d2 hb2
              · intro d2 o2 h2
                cases h2
          · -- a best (bd, bo) exists already
            have hs : bestStep w row col (some (bd, bo)) x =
                if dx < bd then some (dx, x) else some (bd, bo) := bestStep_cell_some hbin
            have haccbo : obstacleBin w bo = some (row, col, bd) := hacc bd bo rfl
            by_cases hlt : dx < bd
            · rw [if_pos hlt] at hs
              have hacc2 : ∀ d o, (some (dx, x) : Option (ℝ × Obstacle)) = some (d, o) →
                  obstacleBin w o = some (row, col, d) := by
                intro d o h
                simp only [Option.some.injEq, Prod.mk.injEq] at h
                obtain ⟨rfl, rfl⟩ := h
                exact hbin
              obtain ⟨H1, H2⟩ := ih (some (dx, x)) hacc2
              constructor
              · intro h
                rw [List.foldl_cons, hs] at h
                obtain ⟨hcontra, _⟩ := H1 h
                cases hcontra
              · intro d o h
                rw [List.foldl_cons, hs] at h
                obtain ⟨hbino, horig, hmin, haccmin⟩ := H2 d o h
                have hddx : d ≤ dx := haccmin dx x rfl
                refine ⟨hbino, ?_, ?_, ?_⟩
                · rcases horig with h1 | h1
                  · simp only [Option.some.injEq, Prod.mk.injEq] at h1
                    obtain ⟨rfl, rfl⟩ := h1
                    exact Or.inr (List.mem_cons_self _ _)
                  · exact Or.inr (List.mem_cons_of_mem _ h1)
                · intro o2 ho2 d2 hb2
                  rcases List.mem_cons.mp ho2 with rfl | ho3
                  · rw [hbin] at hb2
                    simp only [Option.some.injEq, Prod.mk.injEq] at hb2
                    obtain ⟨-, -, rfl⟩ := hb2
                    exact hddx
                  · exact hmin o2 ho3 d2 hb2
                · intro d2 o2 h2
                  simp only [Option.some.injEq, Prod.mk.injEq] at h2
                  obtain ⟨rfl, rfl⟩ := h2
                  exact le_trans hddx (le_of_lt hlt)
            · rw [if_neg hlt] at hs
              have hble : bd ≤ dx := not_lt.mp hlt
              obtain ⟨H1, H2⟩ := ih (some (bd, bo)) (by
                intro d o h
                simp only [Option.some.injEq, Prod.mk.injEq] at h
                obtain ⟨rfl, rfl⟩ := h
                exact haccbo)
              constructor
              · intro h
                rw [List.foldl_cons, hs] at h
                obtain ⟨hcontra, _⟩ := H1 h
                cases hcontra
              · intro d o h
                rw [List.foldl_cons, hs] at h
                obtain ⟨hbino, horig, hmin, haccmin⟩ := H2 d o h
                have hdbd : d ≤ bd := haccmin bd bo rfl
                refine ⟨hbino, ?_, ?_, ?_⟩
                · rcases horig with h1 | h1
                  · exact Or.inl h1
                  · exact Or.inr (List.mem_cons_of_mem _ h1)
                · intro o2 ho2 d2 hb2
                  rcases List.mem_cons.mp ho2 with rfl | ho3
                  · rw [hbin] at hb2
                    simp only [Option.some.injEq, Prod.mk.injEq] at hb2
                    obtain ⟨-, -, rfl⟩ := hb2
                    exact le_trans hdbd hble
                  · exact hmin o2 ho3 d2 hb2
                · intro d2 o2 h2
                  simp only [Option.some.injEq, Prod.mk.injEq] at h2
                  obtain ⟨rfl, rfl⟩ := h2
                  exact hdbd
        · -- obstacle x falls in a different cell
          have hs : bestStep w r c acc x = acc := bestStep_bin_other hbin hcell
          obtain ⟨H1, H2⟩ := ih acc hacc
          constructor
          · intro h
            rw [List.foldl_cons, hs] at h
            obtain ⟨ha, hnol⟩ := H1 h
            refine ⟨ha, ?_⟩
            intro o ho d
            rcases List.mem_cons.mp ho with rfl | ho2
            · rw [hbin]
              intro hcontra
              simp only [Option.some.injEq, Prod.mk.injEq] at hcontra
              exact hcell ⟨hcontra.1, hcontra.2.1⟩
            · exact hnol o ho2 d
          · intro d o h
            rw [List.foldl_cons, hs] at h
            obtain ⟨hbino, horig, hmin, haccmin⟩ := H2 d o h
            refine ⟨hbino, ?_, ?_, haccmin⟩
            · rcases horig with h1 | h1
              · exact Or.inl h1
              · exact Or.inr (List.mem_cons_of_mem _ h1)
            · intro o2 ho2 d2 hb2
              rcases List.mem_cons.mp ho2 with rfl | ho3
              · rw [hbin] at hb2
                simp only [Option.some.injEq, Prod.mk.injEq] at hb2
                exact absurd ⟨hb2.1, hb2.2.1⟩ hcell
              · exact hmin o2 ho3 d2 hb2

lemma bestForCell_none {w : World} {r c : Fin 3} (h : bestForCell w r c = none) :
    ∀ o ∈ w.obstacles, ∀ d, obstacleBin w o ≠ some (r, c, d) :=
  ((foldl_best_spec w r c w.obstacles none (by simp)).1 h).2

lemma bestForCell_some {w : World} {r c : Fin 3} {d : ℝ} {o : Obstacle}
    (h : bestForCell w r c = some (d, o)) :
    obstacleBin w o = some (r, c, d) ∧ o ∈ w.obstacles ∧
      ∀ o2 ∈ w.obstacles, ∀ d2, obstacleBin w o2 = some (r, c, d2) → d ≤ d2 := by
  obtain ⟨hb, horig, hmin, _⟩ :=
    (foldl_best_spec w r c w.obstacles none (by simp)).2 d o h
  exact ⟨hb, horig.resolve_left (by simp), hmin⟩

lemma obstacleBin_eq_some_iff (w : World) (o : Obstacle) (r c : Fin 3) (d : ℝ) :
    obstacleBin w o = some (r, c, d) ↔
      d = distOf w o ∧ distOf w o ≤ MAX_RANGE ∧ |bearing_deg w o| ≤ 60 ∧
        row_of (distOf w o) = r ∧ col_of (bearing_deg w o) = c := by
  unfold obstacleBin
  constructor
  · intro h
    by_cases h1 : distOf w o > MAX_RANGE
    · rw [if_pos h1] at h; cases h
    · rw [if_neg h1] at h
      by_cases h2 : |bearing_deg w o| > 60
      · rw [if_pos h2] at h; cases h
      · rw [if_neg h2] at h
        simp only [Option.some.injEq, Prod.mk.injEq] at h
        obtain ⟨hr, hc, hd⟩ := h
        exact ⟨hd.symm, not_lt.mp h1, not_lt.mp h2, hr, hc⟩
  · rintro ⟨rfl, hle, hb, hrow, hcol⟩
    rw [if_neg (not_lt.mpr hle), if_neg (not_lt.mpr hb), hrow, hcol]

lemma heightsPre_of_some {w : World} {r c : Fin 3} {d : ℝ} {o : Obstacle}
    (h : bestForCell w r c = some (d, o)) :
    heightsPre w r c = (get_elevation_height o.elevation : ℝ) * band_weight r := by
  unfold heightsPre
  rw [h]

lemma heightsPre_of_none {w : World} {r c : Fin 3} (h : bestForCell w r c = none) :
    heightsPre w r c = 0 := by
  unfold heightsPre
  rw [h]

lemma heightsPre_ne_zero_of_final {w : World} {r c : Fin 3}
    (h : heightsFinal w r c ≠ 0) : heightsPre w r c ≠ 0 := by
  unfold heightsFinal at h
  split_ifs at h with h1 h2 h3
  · subst h2
    intro h0
    rw [h0] at h
    norm_num at h
  · subst h3
    intro h0
    rw [h0] at h
    norm_num at h
  · exact h
  · exact h

lemma band_weight_pos (r : Fin 3) : 0 < band_weight r := by
  unfold band_weight
  split_ifs <;> norm_num

lemma band_weight_zero : band_weight 0 = 1 := by
  unfold band_weight
  norm_num

lemma risk_term_eq (heights : Fin 3 → Fin 3 → ℝ) (r c : Fin 3) :
    risk_term heights r c = |heights r c| / band_weight r := by
  unfold risk_term
  by_cases hp : |heights r c| > 0
  · rw [if_pos hp]
  · rw [if_neg hp]
    have h0 : |heights r c| = 0 := le_antisymm (not_lt.mp hp) (abs_nonneg _)
    rw [h0, zero_div]

lemma risk_term_nonneg (heights : Fin 3 → Fin 3 → ℝ) (r c : Fin 3) :
    0 ≤ risk_term heights r c := by
  rw [risk_term_eq]
  exact div_nonneg (abs_nonneg _) (le_of_lt (band_weight_pos r))

lemma riskOf_nonneg (heights : Fin 3 → Fin 3 → ℝ) (c : Fin 3) :
    0 ≤ riskOf heights c := by
  unfold riskOf
  have h0 := risk_term_nonneg heights 0 c
  have h1 := risk_term_nonneg heights 1 c
  have h2 := risk_term_nonneg heights 2 c
  linarith

lemma minRisk_nonneg (heights : Fin 3 → Fin 3 → ℝ) : 0 ≤ minRisk heights :=
  le_min (le_min (riskOf_nonneg heights 0) (riskOf_nonneg heights 1))
    (riskOf_nonneg heights 2)

lemma minRisk_le (heights : Fin 3 → Fin 3 → ℝ) (c : Fin 3) :
    minRisk heights ≤ riskOf heights c := by
  unfold minRisk
  fin_cases c
  · exact le_trans (min_le_left _ _) (min_le_left _ _)
  · exact le_trans (min_le_left _ _) (min_le_right _ _)
  · exact min_le_right _ _

lemma minRisk_mem (heights : Fin 3 → Fin 3 → ℝ) :
    minRisk heights = riskOf heights 0 ∨ minRisk heights = riskOf heights 1 ∨
      minRisk heights = riskOf heights 2 := by
  unfold minRisk
  rcases min_cases (min (riskOf heights 0) (riskOf heights 1)) (riskOf heights 2) with
    ⟨hm, -⟩ | ⟨hm, -⟩
  · rcases min_cases (riskOf heights 0) (riskOf heights 1) with ⟨hm2, -⟩ | ⟨hm2, -⟩
    · left; rw [hm, hm2]
    · right; left; rw [hm, hm2]
  · right; right; exact hm

lemma csd_none_of_zero_column (heights : Fin 3 → Fin 3 → ℝ) (c0 : Fin 3)
    (hz : ∀ r, heights r c0 = 0) : compute_safe_direction heights = none := by
  have hrt : ∀ r, risk_term heights r c0 = 0 := by
    intro r
    rw [risk_term_eq, hz r, abs_zero, zero_div]
  have hr0 : riskOf heights c0 = 0 := by
    unfold riskOf
    rw [hrt 0, hrt 1, hrt 2]
    ring
  have hm0 : minRisk heights = 0 :=
    le_antisymm (hr0 ▸ minRisk_le heights c0) (minRisk_nonneg heights)
  unfold compute_safe_direction
  rw [if_pos hm0]

lemma distOf_at_player {w : World} {o : Obstacle}
    (hx : o.x = w.player_x) (hy : o.y = w.player_y) : distOf w o = 0 := by
  unfold distOf get_distance_meters hypot
  rw [hx, hy, sub_self]
  norm_num

/-! ### Evaluation of the concrete scenarios -/

lemma distOf_wK (k : String) : distOf (wK k) (obsK k) = 1 / 2 := by
  show Real.sqrt (((550 : ℝ) - 500) ^ 2 + ((500 : ℝ) - 500) ^ 2) / SCALE = 1 / 2
  rw [show ((550 : ℝ) - 500) ^ 2 + ((500 : ℝ) - 500) ^ 2 = 50 ^ 2 by norm_num,
    Real.sqrt_sq (by norm_num : (0 : ℝ) ≤ 50)]
  unfold SCALE
  norm_num

lemma bearing_wK (k : String) : bearing_deg (wK k) (obsK k) = 0 := by
  show normalize_angle (atan2 ((500 : ℝ) - 500) ((550 : ℝ) - 500) - 0) * 180 / Real.pi = 0
  rw [show ((500 : ℝ) - 500) = 0 by norm_num,
    atan2_zero_of_pos (by norm_num : (0 : ℝ) < 550 - 500), zero_sub, neg_zero,
    normalize_angle_eq_self (by linarith [Real.pi_pos]) (le_of_lt Real.pi_pos)]
  norm_num

lemma row_of_half : row_of (1 / 2 : ℝ) = 0 := by
  unfold row_of
  rw [if_pos (by norm_num : (1 / 2 : ℝ) < 1)]

lemma col_of_zero : col_of (0 : ℝ) = 1 := by
  unfold col_of
  rw [if_neg (by norm_num : ¬(0 : ℝ) < -20), if_pos (by norm_num : (0 : ℝ) < 20)]

lemma bin_wK (k : String) : obstacleBin (wK k) (obsK k) = some (0, 1, 1 / 2) := by
  unfold obstacleBin
  rw [distOf_wK, bearing_wK,
    if_neg (by norm_num [MAX_RANGE] : ¬(1 / 2 : ℝ) > MAX_RANGE),
    if_neg (by norm_num : ¬|(0 : ℝ)| > 60), row_of_half, col_of_zero]

lemma best_wK (k : String) : bestForCell (wK k) 0 1 = some (1 / 2, obsK k) := by
  show List.foldl (bestStep (wK k) 0 1) none [obsK k] = some (1 / 2, obsK k)
  rw [List.foldl_cons, List.foldl_nil]
  exact bestStep_cell_none (bin_wK k)

lemma heightsPre_wK (k : String) :
    heightsPre (wK k) 0 1 = (get_elevation_height k : ℝ) * band_weight 0 := by
  rw [heightsPre_of_some (best_wK k)]
  rfl

lemma heightsPre_wK_step : heightsPre (wK STEP) 0 1 = 1 := by
  rw [heightsPre_wK STEP, band_weight_zero,
    show get_elevation_height STEP = 1 by decide]
  norm_num

lemma heightsPre_wK_top : heightsPre (wK TOP) 0 1 = 3 := by
  rw [heightsPre_wK TOP, band_weight_zero,
    show get_elevation_height TOP = 3 by decide]
  norm_num

lemma heightsFinal_wK_step : heightsFinal (wK STEP) 0 1 = 1 := by
  unfold heightsFinal
  rw [if_neg (by rw [heightsPre_wK_step, band_weight_zero]; norm_num)]
  exact heightsPre_wK_step

lemma bearing_wA : bearing_deg wA obsAtPlayer = 0 := by
  show normalize_angle (atan2 ((500 : ℝ) - 500) ((500 : ℝ) - 500) - 0) * 180 / Real.pi = 0
  rw [show ((500 : ℝ) - 500) = 0 by norm_num, atan2_zero_zero, zero_sub, neg_zero,
    normalize_angle_eq_self (by linarith [Real.pi_pos]) (le_of_lt Real.pi_pos)]
  norm_num

lemma bearing_wB : bearing_deg wB obsAtPlayer = -90 := by
  show normalize_angle (atan2 ((500 : ℝ) - 500) ((500 : ℝ) - 500) - Real.pi / 2)
      * 180 / Real.pi = -90
  rw [show ((500 : ℝ) - 500) = 0 by norm_num, atan2_zero_zero, zero_sub,
    normalize_angle_eq_self (by linarith [Real.pi_pos]) (by linarith [Real.pi_pos])]
  field_simp
  ring

lemma not_wall_500 : ¬ wallBlocked 500 500 := by
  unfold wallBlocked WALL_INNER WALL_BOUNDARY WALL_THICKNESS_PX WORLD_SIZE
  push_neg
  norm_num

/-! ## Claim theorems -/

/-- C1: in every world, a grid cell reporting a nonzero intensity holds
exactly one obstacle reference; that obstacle lies within 3 m, its bearing
and distance fall in the cell's direction and distance bands, it has the
minimal planar distance among all obstacles qualifying for that bin, and
the cell's pre-suppression intensity is the per-kind height code times the
row attenuation weight. -/
theorem c1_nonzero_cell_nearest (w : World) (r c : Fin 3)
    (h : heightsFinal w r c ≠ 0) :
    ∃ d o, bestForCell w r c = some (d, o) ∧
      cellObstacle w r c = some o ∧
      o ∈ w.obstacles ∧
      d = distOf w o ∧
      distOf w o ≤ MAX_RANGE ∧
      |bearing_deg w o| ≤ 60 ∧
      row_of (distOf w o) = r ∧
      col_of (bearing_deg w o) = c ∧
      (∀ o2 ∈ w.obstacles, distOf w o2 ≤ MAX_RANGE → |bearing_deg w o2| ≤ 60 →
        row_of (distOf w o2) = r → col_of (bearing_deg w o2) = c →
        distOf w o ≤ distOf w o2) ∧
      heightsPre w r c = (get_elevation_height o.elevation : ℝ) * band_weight r := by
  have hpre := heightsPre_ne_zero_of_final h
  rcases hb : bestForCell w r c with - | ⟨d, o⟩
  · exact absurd (heightsPre_of_none hb) hpre
  · obtain ⟨hbin, hmem, hmin⟩ := bestForCell_some hb
    obtain ⟨hd, hle, hbear, hrow, hcol⟩ := (obstacleBin_eq_some_iff w o r c d).mp hbin
    refine ⟨d, o, rfl, ?_, hmem, hd, hle, hbear, hrow, hcol, ?_, heightsPre_of_some hb⟩
    · unfold cellObstacle
      rw [hb]
      rfl
    · intro o2 ho2 h1 h2 h3 h4
      have hq := hmin o2 ho2 (distOf w o2)
        ((obstacleBin_eq_some_iff w o2 r c (distOf w o2)).mpr ⟨rfl, h1, h2, h3, h4⟩)
      rw [← hd]
      exact hq

/-- C1 witness: a step obstacle 0.5 m straight ahead yields a nonzero
Immediate/Center intensity and that cell references exactly that
obstacle. -/
theorem c1_witness :
    heightsFinal (wK STEP) 0 1 ≠ 0 ∧
      cellObstacle (wK STEP) 0 1 = some (obsK STEP) := by
  have h : heightsFinal (wK STEP) 0 1 ≠ 0 := by
    rw [heightsFinal_wK_step]
    norm_num
  obtain ⟨d, o, hb, hco, -, -, -, -, -, -, -, -⟩ := c1_nonzero_cell_nearest (wK STEP) 0 1 h
  have hoe : (some (1 / 2, obsK STEP) : Option (ℝ × Obstacle)) = some (d, o) :=
    (best_wK STEP).symm.trans hb
  simp only [Option.some.injEq, Prod.mk.injEq] at hoe
  obtain ⟨-, rfl⟩ := hoe
  exact ⟨h, hco⟩

/-- C3: compute_safe_direction aggregates for each column the sum over
rows of the absolute intensity divided by the row weight; it returns none
(all clear) exactly when the minimum of the three aggregates is zero, and
otherwise the lowest column index attaining the minimum. -/
theorem c3_safe_direction_spec (heights : Fin 3 → Fin 3 → ℝ) :
    (∀ c, riskOf heights c =
      |heights 0 c| / band_weight 0 + |heights 1 c| / band_weight 1 +
        |heights 2 c| / band_weight 2) ∧
    (compute_safe_direction heights = none ↔ minRisk heights = 0) ∧
    (∀ c, compute_safe_direction heights = some c →
      riskOf heights c = minRisk heights ∧
      ∀ c2, riskOf heights c2 = minRisk heights → c ≤ c2) := by
  refine ⟨?_, ?_, ?_⟩
  · intro c
    unfold riskOf
    rw [risk_term_eq, risk_term_eq, risk_term_eq]
  · unfold compute_safe_direction
    split_ifs with h0 h1 h2 <;> simp [h0]
  · intro c hc
    unfold compute_safe_direction at hc
    split_ifs at hc with h0 h1 h2
    · obtain rfl := Option.some.inj hc
      refine ⟨h1, ?_⟩
      intro c2 _
      exact Fin.zero_le c2
    · obtain rfl := Option.some.inj hc
      refine ⟨h2, ?_⟩
      intro c2 hc2
      fin_cases c2
      · exact absurd hc2 h1
      · exact le_refl _
      · decide
    · obtain rfl := Option.some.inj hc
      have hmem := minRisk_mem heights
      have h3 : riskOf heights 2 = minRisk heights := by
        rcases hmem with hm | hm | hm
        · exact absurd hm.symm h1
        · exact absurd hm.symm h2
        · exact hm.symm
      refine ⟨h3, ?_⟩
      intro c2 hc2
      fin_cases c2
      · exact absurd hc2 h1
      · exact absurd hc2 h2
      · exact le_refl _

/-- C3 witness: explicit evaluation of the aggregate formula and the
all-clear criterion on the uniform grid. -/
theorem c3_witness :
    (riskOf exGrid3 0 =
      |exGrid3 0 0| / band_weight 0 + |exGrid3 1 0| / band_weight 1 +
        |exGrid3 2 0| / band_weight 2) ∧
    (compute_safe_direction exGrid3 = none ↔ minRisk exGrid3 = 0) :=
  ⟨(c3_safe_direction_spec exGrid3).1 0, (c3_safe_direction_spec exGrid3).2.1⟩

/-- C7: per perception tick and cell with a best obstacle, a recorded
previous distance yields radial speed abs (prev - best) / 0.2 classified
fast above 0.8 m/s, slow above 0.2 m/s, static otherwise; without a
recorded previous distance the cell is static; afterwards the stored
previous distance equals this tick's best distance, or none when the cell
holds no obstacle. -/
theorem c7_motion_detection (w : World) (prev : Fin 3 → Fin 3 → Option ℝ)
    (r c : Fin 3) :
    (∀ d o, bestForCell w r c = some (d, o) →
      newPrevOf w r c = some d ∧
      (prev r c = none → vibrationOf prev w r c = STATIC) ∧
      (∀ p, prev r c = some p →
        (|p - d| / 0.2 > 0.8 → vibrationOf prev w r c = FAST) ∧
        (¬|p - d| / 0.2 > 0.8 → |p - d| / 0.2 > 0.2 →
          vibrationOf prev w r c = SLOW) ∧
        (¬|p - d| / 0.2 > 0.2 → vibrationOf prev w r c = STATIC))) ∧
    (bestForCell w r c = none →
      newPrevOf w r c = none ∧ vibrationOf prev w r c = STATIC) := by
  constructor
  · intro d o hb
    refine ⟨?_, ?_, ?_⟩
    · unfold newPrevOf
      rw [hb]
      rfl
    · intro hp
      unfold vibrationOf
      rw [hb, hp]
    · intro p hp
      refine ⟨?_, ?_, ?_⟩
      · intro hfast
        unfold vibrationOf
        rw [hb, hp]
        simp only [if_pos hfast]
      · intro hnf hslow
        unfold vibrationOf
        rw [hb, hp]
        simp only [if_neg hnf, if_pos hslow]
      · intro hns
        have hnf : ¬|p - d| / 0.2 > 0.8 := by
          intro hcontra
          exact hns (by linarith)
        unfold vibrationOf
        rw [hb, hp]
        simp only [if_neg hnf, if_neg hns]
  · intro hb
    unfold newPrevOf vibrationOf
    rw [hb]
    exact ⟨rfl, rfl⟩

/-- C7 witness: with previous distance 1 m and current best distance
0.5 m the computed speed is 2.5 m/s and the cell vibrates fast, and the
stored distance becomes 0.5 m. -/
theorem c7_witness :
    vibrationOf prevK (wK STEP) 0 1 = FAST ∧
      newPrevOf (wK STEP) 0 1 = some (1 / 2) := by
  obtain ⟨hnp, -, hvib⟩ :=
    (c7_motion_detection (wK STEP) prevK 0 1).1 (1 / 2) (obsK STEP) (best_wK STEP)
  have hp : prevK 0 1 = some 1 := by
    unfold prevK
    rw [if_pos ⟨rfl, rfl⟩]
  have habs : |(1 : ℝ) - 1 / 2| = 1 / 2 := by
    rw [abs_of_nonneg] <;> norm_num
  have hfast : |(1 : ℝ) - 1 / 2| / 0.2 > 0.8 := by
    rw [habs]
    norm_num
  exact ⟨(hvib 1 hp).1 hfast, hnp⟩

/-- C8: per column, when the Immediate cell's intensity reaches
3 * band_weight 0 the returned Far intensity is 0.3 times and the Near
intensity 0.7 times their pre-suppression values while the Immediate
intensity, the vibration modes and the obstacle references are unchanged;
columns below that threshold are returned unmodified. -/
theorem c8_priority_suppression (w : World) (c : Fin 3) :
    (heightsPre w 0 c ≥ 3 * band_weight 0 →
      heightsFinal w 2 c = heightsPre w 2 c * 0.3 ∧
      heightsFinal w 1 c = heightsPre w 1 c * 0.7 ∧
      heightsFinal w 0 c = heightsPre w 0 c) ∧
    (¬heightsPre w 0 c ≥ 3 * band_weight 0 →
      ∀ r, heightsFinal w r c = heightsPre w r c) ∧
    (∀ st : SimState,
      (compute_tactile_grid st).2.vibration = vibrationOf st.previous_dist st.world ∧
      (compute_tactile_grid st).2.cell_obstacles = cellObstacle st.world) := by
  refine ⟨?_, ?_, fun st => ⟨rfl, rfl⟩⟩
  · intro hcond
    refine ⟨?_, ?_, ?_⟩ <;>
      · unfold heightsFinal
        rw [if_pos hcond]
        simp
  · intro hcond r
    unfold heightsFinal
    rw [if_neg hcond]

/-- C8 witness: a top obstacle 0.5 m ahead drives the Immediate/Center
intensity to 3 and the Far cell of that column is returned at 0.3 times
its pre-suppression value. -/
theorem c8_witness :
    heightsFinal (wK TOP) 2 1 = heightsPre (wK TOP) 2 1 * 0.3 := by
  have hcond : heightsPre (wK TOP) 0 1 ≥ 3 * band_weight 0 := by
    rw [heightsPre_wK_top, band_weight_zero]
    norm_num
  exact ((c8_priority_suppression (wK TOP) 1).1 hcond).1

/-- C10: compute_tactile_grid leaves the obstacle set and the player pose
untouched, writes only the previous-distance table and the timestep
counter, and its returned grid is a function of the world and the
previous-distance table alone. -/
theorem c10_frame_effect (st : SimState) :
    ((compute_tactile_grid st).1.world = st.world) ∧
    ((compute_tactile_grid st).1.previous_dist = fun r c => newPrevOf st.world r c) ∧
    ((compute_tactile_grid st).1.timestep = st.timestep + 1) ∧
    (∀ st2 : SimState, st2.world = st.world → st2.previous_dist = st.previous_dist →
      (compute_tactile_grid st2).2 = (compute_tactile_grid st).2) := by
  refine ⟨rfl, rfl, rfl, ?_⟩
  intro st2 hw hp
  unfold compute_tactile_grid
  rw [hw, hp]

/-- C10 witness: on a concrete state the timestep advances by one and a
state agreeing on world and previous distances yields the same grid. -/
theorem c10_witness :
    (compute_tactile_grid exSim0).1.timestep = exSim0.timestep + 1 ∧
      (compute_tactile_grid exSim0).2 = (compute_tactile_grid exSim0).2 :=
  ⟨(c10_frame_effect exSim0).2.2.1, (c10_frame_effect exSim0).2.2.2 exSim0 rfl rfl⟩

/-- C2 counterexample: on the grid with column 0 entirely zero and columns
1 and 2 each holding a nonzero cell, compute_safe_direction returns none
(all clear), not the index of the empty column. -/
theorem c2_counterexample :
    (∀ r, exGrid2 r 0 = 0) ∧ exGrid2 0 1 ≠ 0 ∧ exGrid2 0 2 ≠ 0 ∧
    compute_safe_direction exGrid2 ≠ some 0 ∧
    compute_safe_direction exGrid2 = none := by
  have hz : ∀ r, exGrid2 r 0 = 0 := by
    intro r
    unfold exGrid2
    rw [if_pos rfl]
  have hnone : compute_safe_direction exGrid2 = none :=
    csd_none_of_zero_column exGrid2 0 hz
  refine ⟨hz, ?_, ?_, ?_, hnone⟩
  · unfold exGrid2
    rw [if_neg (by decide), if_pos rfl]
    norm_num
  · unfold exGrid2
    rw [if_neg (by decide), if_pos rfl]
    norm_num
  · rw [hnone]
    exact fun hcontra => Option.noConfusion hcontra

/-- C2 (amended): with one direction column entirely zero (in particular
with the other two columns populated), compute_safe_direction reports all
clear (none), because the minimum column aggregate is zero; the all-zero
grid likewise yields all clear. -/
theorem c2_empty_column_all_clear :
    (∀ (heights : Fin 3 → Fin 3 → ℝ) (c0 : Fin 3),
      (∀ r, heights r c0 = 0) →
      (∀ c, c ≠ c0 → ∃ r, heights r c ≠ 0) →
      compute_safe_direction heights = none) ∧
    (∀ heights : Fin 3 → Fin 3 → ℝ,
      (∀ r c, heights r c = 0) → compute_safe_direction heights = none) :=
  ⟨fun heights c0 hz _ => csd_none_of_zero_column heights c0 hz,
   fun heights hz => csd_none_of_zero_column heights 0 fun r => hz r 0⟩

/-- C2 witness: the amended behavior on the concrete one-empty-column
grid. -/
theorem c2_witness : compute_safe_direction exGrid2 = none := by
  refine (c2_empty_column_all_clear.1) exGrid2 0 ?_ ?_
  · intro r
    unfold exGrid2
    rw [if_pos rfl]
  · intro c hc
    refine ⟨0, ?_⟩
    fin_cases c
    · exact absurd rfl hc
    · unfold exGrid2
      rw [if_neg (by decide), if_pos rfl]
      norm_num
    · unfold exGrid2
      rw [if_neg (by decide), if_pos rfl]
      norm_num

/-- C5 (amended): for a candidate position clear of the wall margin, a
cliff pothole containing the point always blocks; a step containing the
point blocks whenever the player is not jumping; while jumping the test
blocks exactly when some cliff pothole, mid or top obstacle contains the
point (steps never block mid-air); and a point contained only in shallow
potholes is never blocked. -/
theorem c5_collision_rules (w : World) (jumping : Bool) (px py : ℝ)
    (hwall : ¬ wallBlocked px py) :
    (∀ o ∈ w.obstacles, insideExpanded o px py → o.elevation = CLIFF_POTHOLE →
      check_collision w jumping px py = true) ∧
    (∀ o ∈ w.obstacles, insideExpanded o px py → o.elevation = STEP →
      jumping = false → check_collision w jumping px py = true) ∧
    (jumping = true →
      (check_collision w jumping px py = true ↔
        ∃ o ∈ w.obstacles, insideExpanded o px py ∧
          (o.elevation = CLIFF_POTHOLE ∨ o.elevation = MID ∨ o.elevation = TOP))) ∧
    ((∀ o ∈ w.obstacles, insideExpanded o px py → o.elevation = SHALLOW_POTHOLE) →
      check_collision w jumping px py = false) := by
  unfold check_collision
  rw [if_neg hwall]
  refine ⟨?_, ?_, ?_, ?_⟩
  · intro o ho hin helev
    rw [List.any_eq_true]
    refine ⟨o, ho, ?_⟩
    rw [if_pos hin, if_pos helev]
  · intro o ho hin helev hj
    rw [List.any_eq_true]
    refine ⟨o, ho, ?_⟩
    have h1 : ¬ o.elevation = CLIFF_POTHOLE := by
      rw [helev]
      decide
    have h2 : ¬ (o.elevation = MID ∨ o.elevation = TOP) := by
      rw [helev]
      decide
    rw [if_pos hin, if_neg h1, if_neg h2, if_pos ⟨helev, hj⟩]
  · intro hj
    rw [List.any_eq_true]
    constructor
    · rintro ⟨o, ho, hpo⟩
      by_cases hin : insideExpanded o px py
      · rw [if_pos hin] at hpo
        refine ⟨o, ho, hin, ?_⟩
        by_cases h1 : o.elevation = CLIFF_POTHOLE
        · exact Or.inl h1
        · rw [if_neg h1] at hpo
          by_cases h2 : o.elevation = MID ∨ o.elevation = TOP
          · exact Or.inr h2
          · have hstep : ¬(o.elevation = STEP ∧ jumping = false) := by
              rintro ⟨-, hf⟩
              rw [hj] at hf
              cases hf
            rw [if_neg h2, if_neg hstep] at hpo
            simp at hpo
      · rw [if_neg hin] at hpo
        simp at hpo
    · rintro ⟨o, ho, hin, hcat⟩
      refine ⟨o, ho, ?_⟩
      rw [if_pos hin]
      rcases hcat with h1 | h2
      · rw [if_pos h1]
      · have h1 : ¬ o.elevation = CLIFF_POTHOLE := by
          rcases h2 with h2 | h2 <;> rw [h2] <;> decide
        rw [if_neg h1, if_pos h2]
  · intro hall
    rw [List.any_eq_false]
    intro o ho
    by_cases hin : insideExpanded o px py
    · have hsh := hall o ho hin
      have h1 : ¬ o.elevation = CLIFF_POTHOLE := by
        rw [hsh]
        decide
      have h2 : ¬ (o.elevation = MID ∨ o.elevation = TOP) := by
        rw [hsh]
        decide
      have h3 : ¬(o.elevation = STEP ∧ jumping = false) := by
        rintro ⟨hs, -⟩
        rw [hsh] at hs
        exact absurd hs (by decide)
      rw [if_pos hin, if_neg h1, if_neg h2, if_neg h3]
      simp
    · rw [if_neg hin]
      simp

/-- C5 counterexample: overlapping step and mid obstacles at the same
point: the point is inside the step's expanded bounds and the player is
jumping, yet check_collision blocks, against the step-blocks-exactly-when-
not-jumping reading. -/
theorem c5_counterexample :
    ¬ wallBlocked 500 500 ∧ obsStep ∈ wStepMid.obstacles ∧
    insideExpanded obsStep 500 500 ∧ obsStep.elevation = STEP ∧
    check_collision wStepMid true 500 500 = true := by
  have hinMid : insideExpanded obsMid 500 500 := by
    unfold insideExpanded obsMid SCALE PLAYER_RADIUS
    norm_num
  refine ⟨not_wall_500, ?_, ?_, rfl, ?_⟩
  · show obsStep ∈ [obsStep, obsMid]
    exact List.mem_cons_self _ _
  · unfold insideExpanded obsStep SCALE PLAYER_RADIUS
    norm_num
  · unfold check_collision
    rw [if_neg not_wall_500, List.any_eq_true]
    refine ⟨obsMid, ?_, ?_⟩
    · show obsMid ∈ [obsStep, obsMid]
      exact List.mem_cons_of_mem _ (List.mem_cons_self _ _)
    · rw [if_pos hinMid, if_neg (show ¬ obsMid.elevation = CLIFF_POTHOLE by decide),
        if_pos (Or.inl (show obsMid.elevation = MID from rfl))]

/-- C5 witness: a cliff pothole containing the candidate point blocks it
through the first amended rule. -/
theorem c5_witness : check_collision wCliff false 500 500 = true := by
  refine (c5_collision_rules wCliff false 500 500 not_wall_500).1 obsCliff ?_ ?_ rfl
  · show obsCliff ∈ [obsCliff]
    exact List.mem_cons_self _ _
  · unfold insideExpanded obsCliff SCALE PLAYER_RADIUS
    norm_num

/-- C4: the tactile grid is recomputed on every main-loop frame, not once
per perception tick: the frame function increments the grid timestep
unconditionally, and on a concrete frame only 10 ms after the previous
perception update (well inside the 200 ms gate, which therefore does not
fire and leaves last_update unchanged) the grid is still recomputed. -/
theorem c4_grid_recomputed_every_frame :
    (∀ (t : ℝ) (ls : LoopState), (frame t ls).sim.timestep = ls.sim.timestep + 1) ∧
    ((1 / 100 : ℝ) - exLoop0.last_update < 1 / UPDATE_RATE) ∧
    ((frame (1 / 100) exLoop0).last_update = exLoop0.last_update) ∧
    ((frame (1 / 100) exLoop0).sim.timestep = exLoop0.sim.timestep + 1) := by
  have hgate : ¬((1 / 100 : ℝ) - exLoop0.last_update ≥ 1 / UPDATE_RATE) := by
    show ¬((1 / 100 : ℝ) - (0 : ℝ) ≥ 1 / UPDATE_RATE)
    unfold UPDATE_RATE
    norm_num
  refine ⟨fun t ls => rfl, not_le.mp hgate, ?_, rfl⟩
  show (if (1 / 100 : ℝ) - exLoop0.last_update ≥ 1 / UPDATE_RATE then (1 / 100 : ℝ)
      else exLoop0.last_update) = exLoop0.last_update
  rw [if_neg hgate]

lemma update_jumping_eq (w : World) (dt : ℝ) (s : VState) (h : s.jumping = true) :
    update_player_vertical w dt s =
      if s.y_offset + (s.jump_velocity - GRAVITY * dt) * dt ≤ 0 ∧
          s.jump_velocity - GRAVITY * dt < 0 then
        ⟨0, s.y_target, false, false, 0⟩
      else
        ⟨s.y_offset + (s.jump_velocity - GRAVITY * dt) * dt, s.y_target,
          s.in_pothole, true, s.jump_velocity - GRAVITY * dt⟩ := by
  simp [update_player_vertical, h]

lemma update_not_jumping_keeps (w : World) (dt : ℝ) (s : VState)
    (h : s.jumping = false) : (update_player_vertical w dt s).jumping = false := by
  unfold update_player_vertical
  rw [h]
  rfl

lemma handle_jump_key_pit (s : VState) (hnj : s.jumping = false)
    (hpit : s.in_pothole = true) :
    handle_jump_key s = { s with jumping := true, jump_velocity := JUMP_STRENGTH * 1.2 } := by
  unfold handle_jump_key
  rw [hnj, hpit]
  rfl

/-- C6: a jump launched from a pit starts at JUMP_STRENGTH * 1.2 with
in_pothole still true; in_pothole stays true through the whole airborne
phase; and jumping, in_pothole, the offset and the velocity are cleared
exactly at the step where the integrated offset returns to at most 0 with
negative velocity, never earlier. -/
theorem c6_pit_jump_landing (w : World) (dt : ℝ) (s : VState)
    (hnj : s.jumping = false) (hpit : s.in_pothole = true) :
    (jumpTraj w dt s 0).jump_velocity = JUMP_STRENGTH * 1.2 ∧
    (jumpTraj w dt s 0).in_pothole = true ∧
    (jumpTraj w dt s 0).jumping = true ∧
    (∀ n, (jumpTraj w dt s n).jumping = true →
      (jumpTraj w dt s n).in_pothole = true) ∧
    (∀ n, (jumpTraj w dt s n).jumping = true →
      ((jumpTraj w dt s (n + 1)).jumping = false ↔
        ((jumpTraj w dt s n).y_offset +
            ((jumpTraj w dt s n).jump_velocity - GRAVITY * dt) * dt ≤ 0 ∧
          (jumpTraj w dt s n).jump_velocity - GRAVITY * dt < 0)) ∧
      ((jumpTraj w dt s (n + 1)).jumping = false →
        (jumpTraj w dt s (n + 1)).y_offset = 0 ∧
        (jumpTraj w dt s (n + 1)).jump_velocity = 0 ∧
        (jumpTraj w dt s (n + 1)).in_pothole = false)) := by
  have h0 : jumpTraj w dt s 0 = handle_jump_key s := rfl
  have hk := handle_jump_key_pit s hnj hpit
  have hsucc : ∀ n, jumpTraj w dt s (n + 1) =
      update_player_vertical w dt (jumpTraj w dt s n) := by
    intro n
    unfold jumpTraj
    exact Function.iterate_succ_apply' _ _ _
  have hinv : ∀ n, (jumpTraj w dt s n).jumping = true →
      (jumpTraj w dt s n).in_pothole = true := by
    intro n
    induction n with
    | zero =>
        intro _hj
        rw [h0, hk]
        exact hpit
    | succ n ihn =>
        intro hj1
        by_cases hj : (jumpTraj w dt s n).jumping = true
        · have hp := ihn hj
          rw [hsucc n, update_jumping_eq w dt _ hj] at hj1 ⊢
          by_cases hland : (jumpTraj w dt s n).y_offset +
              ((jumpTraj w dt s n).jump_velocity - GRAVITY * dt) * dt ≤ 0 ∧
              (jumpTraj w dt s n).jump_velocity - GRAVITY * dt < 0
          · rw [if_pos hland] at hj1
            simp at hj1
          · rw [if_neg hland]
            exact hp
        · have hj2 : (jumpTraj w dt s n).jumping = false := by
            revert hj
            cases (jumpTraj w dt s n).jumping <;> simp
          have hkeep := update_not_jumping_keeps w dt _ hj2
          rw [hsucc n] at hj1
          rw [hkeep] at hj1
          cases hj1
  refine ⟨by rw [h0, hk], by rw [h0, hk]; exact hpit, by rw [h0, hk], hinv, ?_⟩
  intro n hj
  rw [hsucc n, update_jumping_eq w dt _ hj]
  by_cases hland : (jumpTraj w dt s n).y_offset +
      ((jumpTraj w dt s n).jump_velocity - GRAVITY * dt) * dt ≤ 0 ∧
      (jumpTraj w dt s n).jump_velocity - GRAVITY * dt < 0
  · rw [if_pos hland]
    exact ⟨⟨fun _ => hland, fun _ => rfl⟩, fun _ => ⟨rfl, rfl, rfl⟩⟩
  · rw [if_neg hland]
    constructor
    · constructor
      · intro hcontra
        cases hcontra
      · intro hc
        exact absurd hc hland
    · intro hcontra
      cases hcontra

/-- C6 witness: launching from a settled pit state at the standard tick
produces the boosted velocity and keeps in_pothole set. -/
theorem c6_witness :
    (jumpTraj exWorld0 (1 / 60) exPitState 0).jump_velocity = JUMP_STRENGTH * 1.2 ∧
      (jumpTraj exWorld0 (1 / 60) exPitState 0).in_pothole = true := by
  have h := c6_pit_jump_landing exWorld0 (1 / 60) exPitState rfl rfl
  exact ⟨h.1, h.2.1⟩

/-- C9 (amended): an obstacle at exactly the player position is processed
without fault, for every player heading: its distance is 0 and its raw
angle atan2 0 0 is 0, so its relative bearing is the normalized negated
heading; the obstacle is discarded by the field-of-view test (assigned to
no bin) exactly when the magnitude of that bearing exceeds 60 degrees;
otherwise it is assigned to the Immediate row with the column given by
the bearing's direction band; it lands in the Immediate/Center bin
exactly when the bearing is at least -20 and below 20 degrees (as at
heading 0), and in that case, if it is in the obstacle list, the
Immediate/Center cell is occupied at best distance 0. -/
theorem c9_zero_distance (w : World) (o : Obstacle)
    (hx : o.x = w.player_x) (hy : o.y = w.player_y) :
    distOf w o = 0 ∧
    atan2 (o.y - w.player_y) (o.x - w.player_x) = 0 ∧
    (obstacleBin w o = none ↔ |bearing_deg w o| > 60) ∧
    (|bearing_deg w o| ≤ 60 →
      obstacleBin w o = some (0, col_of (bearing_deg w o), 0)) ∧
    (obstacleBin w o = some (0, 1, 0) ↔
      -20 ≤ bearing_deg w o ∧ bearing_deg w o < 20) ∧
    (-20 ≤ bearing_deg w o → bearing_deg w o < 20 → o ∈ w.obstacles →
      ∃ o2, bestForCell w 0 1 = some (0, o2)) := by
  have hd : distOf w o = 0 := distOf_at_player hx hy
  have ha : atan2 (o.y - w.player_y) (o.x - w.player_x) = 0 := by
    rw [hx, hy, sub_self, sub_self]
    exact atan2_zero_zero
  have hbin_eq : obstacleBin w o =
      if |bearing_deg w o| > 60 then none
      else some (0, col_of (bearing_deg w o), 0) := by
    unfold obstacleBin
    rw [hd, if_neg (show ¬(0 : ℝ) > MAX_RANGE by unfold MAX_RANGE; norm_num)]
    by_cases hb : |bearing_deg w o| > 60
    · rw [if_pos hb, if_pos hb]
    · rw [if_neg hb, if_neg hb]
      unfold row_of
      rw [if_pos (by norm_num : (0 : ℝ) < 1)]
  have hcenter : obstacleBin w o = some (0, 1, 0) ↔
      -20 ≤ bearing_deg w o ∧ bearing_deg w o < 20 := by
    rw [hbin_eq]
    constructor
    · intro h
      by_cases hb : |bearing_deg w o| > 60
      · rw [if_pos hb] at h
        cases h
      · rw [if_neg hb] at h
        simp only [Option.some.injEq, Prod.mk.injEq] at h
        obtain ⟨-, hcol, -⟩ := h
        unfold col_of at hcol
        split_ifs at hcol with h1 h2
        · cases hcol
        · exact ⟨not_lt.mp h1, h2⟩
        · cases hcol
    · rintro ⟨hge, hlt⟩
      have hb : ¬ |bearing_deg w o| > 60 :=
        not_lt.mpr (abs_le.mpr ⟨by linarith, by linarith⟩)
      rw [if_neg hb]
      have hcol : col_of (bearing_deg w o) = 1 := by
        unfold col_of
        rw [if_neg (not_lt.mpr hge), if_pos hlt]
      rw [hcol]
  refine ⟨hd, ha, ?_, ?_, hcenter, ?_⟩
  · rw [hbin_eq]
    by_cases hb : |bearing_deg w o| > 60
    · simp [hb]
    · simp [hb]
  · intro hle
    rw [hbin_eq, if_neg (not_lt.mpr hle)]
  · intro hge hlt hmem
    have hbin : obstacleBin w o = some (0, 1, 0) := hcenter.mpr ⟨hge, hlt⟩
    rcases hbc : bestForCell w 0 1 with - | ⟨d2, o2⟩
    · exact absurd hbin (bestForCell_none hbc o hmem 0)
    · obtain ⟨hbin2, -, hmin⟩ := bestForCell_some hbc
      have h1 : d2 ≤ 0 := hmin o hmem 0 hbin
      have h2 : 0 ≤ d2 := by
        obtain ⟨hd2, -, -, -, -⟩ := (obstacleBin_eq_some_iff w o2 0 1 d2).mp hbin2
        rw [hd2]
        exact distOf_nonneg w o2
      have hz : d2 = 0 := le_antisymm h1 h2
      rw [hz]
      exact ⟨o2, rfl⟩

/-- C9 witness: at heading 0 the obstacle at the player position has
distance 0 and, its bearing 0 lying in the Center band, is classified
into the Immediate/Center bin. -/
theorem c9_witness :
    distOf wA obsAtPlayer = 0 ∧ obstacleBin wA obsAtPlayer = some (0, 1, 0) := by
  have h := c9_zero_distance wA obsAtPlayer rfl rfl
  refine ⟨h.1, ?_⟩
  exact h.2.2.2.2.1.mpr ⟨by rw [bearing_wA]; norm_num, by rw [bearing_wA]; norm_num⟩

/-- C9 counterexample: at heading pi/2 the obstacle at the player position
has distance 0 but bearing -90 degrees, is discarded by the field-of-view
test, and no cell (in particular not Immediate/Center) references it. -/
theorem c9_counterexample :
    distOf wB obsAtPlayer = 0 ∧ cellObstacle wB 0 1 = none ∧
      ∀ r c : Fin 3, cellObstacle wB r c = none := by
  have hd : distOf wB obsAtPlayer = 0 := distOf_at_player rfl rfl
  have hbinB : obstacleBin wB obsAtPlayer = none := by
    unfold obstacleBin
    rw [hd, if_neg (by unfold MAX_RANGE; norm_num : ¬(0 : ℝ) > MAX_RANGE),
      if_pos (by rw [bearing_wB]; norm_num : |bearing_deg wB obsAtPlayer| > 60)]
  have hbest : ∀ r c : Fin 3, bestForCell wB r c = none := by
    intro r c
    show List.foldl (bestStep wB r c) none [obsAtPlayer] = none
    rw [List.foldl_cons, List.foldl_nil, bestStep_bin_none hbinB]
  refine ⟨hd, ?_, ?_⟩
  · unfold cellObstacle
    rw [hbest 0 1]
    rfl
  · intro r c
    unfold cellObstacle
    rw [hbest r c]
    rfl

end Tactile
